import Mathlib

/-!
Verification of the ChatWalrus LinkedIn-outreach dashboard's reconciliation
core: CSV decoding/encoding, the flexible column resolver (`getCell`), the
sheet classifier and record builders in `google-sheets.ts`, the unified-lead
merge in `DashboardClient.tsx`, and the approval-update route
(`/api/message/update`).  JavaScript strings are modelled as Lean `String`
(operated on through their character lists), `null`/`undefined` as `Option`,
and the JS truthiness of strings (`""` is falsy) through explicit
empty-string tests.
-/

namespace ChatWalrus

/-! ### JavaScript string primitives -/

/-- Characters removed by `String.prototype.trim` (ASCII whitespace). -/
def trimChars (l : List Char) : List Char :=
  ((l.dropWhile Char.isWhitespace).reverse.dropWhile Char.isWhitespace).reverse

/-- JS `s.trim()`. -/
def jsTrim (s : String) : String := String.mk (trimChars s.data)

/-- JS `s.toLowerCase()` (ASCII). -/
def jsLower (s : String) : String := String.mk (s.data.map Char.toLower)

/-- JS `s.toLowerCase().trim()`, the header normalisation used throughout. -/
def norm (s : String) : String := jsTrim (jsLower s)

/-- JS `s.includes(sub)`: `sub` occurs contiguously in `s`. -/
def jsIncludes (s sub : String) : Bool :=
  (List.range (s.data.length + 1)).any (fun i => sub.data.isPrefixOf (s.data.drop i))

/-- JS `a || b` on strings (`""` is falsy). -/
def strOr (a b : String) : String := if a = "" then b else a

/-- JS `x || ''` where `x : string | null`. -/
def optStr (a : Option String) : String := a.getD ""

/-- JS `x || undefined` where `x : string | null` (empty string collapses to `undefined`). -/
def jsOptional (a : Option String) : Option String :=
  match a with
  | some v => if v = "" then none else some v
  | none => none

/-- JS `v && v.trim() ? v.trim() : undefined` applied to an optional field. -/
def optTrimmed (a : Option String) : Option String :=
  match a with
  | some v => if v ≠ "" ∧ jsTrim v ≠ "" then some (jsTrim v) else none
  | none => none

/-- JS `!cell || cell.trim() === ''`. -/
def cellBlank (c : String) : Bool := c = "" || jsTrim c = ""

/-- JS `row.every(cell => !cell || cell.trim() === '')`. -/
def rowEmpty (row : List String) : Bool := row.all cellBlank

/-! ### CSV decoder (`parseCSV` in `google-sheets.ts`; the update route embeds
a character-identical copy of the same function, so one model serves both). -/

/-- The streaming scan of `parseCSV`: state is (remaining input, `inQuotes`,
current cell, current row, emitted rows).  The `rest.head?` tests mirror the
`nextChar` lookahead (`""` escape inside quotes, `\r\n` skip), and the final
clause mirrors the `if (currentCell || currentRow.length > 0)` flush. -/
def parseCSVAux (l : List Char) (inQ : Bool) (cell : List Char) (row : List (List Char))
    (rows : List (List (List Char))) : List (List (List Char)) :=
  match l with
  | [] => if cell = [] ∧ row = [] then rows else rows ++ [row ++ [cell]]
  | c :: rest =>
      if inQ ∧ c = '"' ∧ rest.head? = some '"' then
        parseCSVAux rest.tail inQ (cell ++ ['"']) row rows
      else if c = '"' then
        parseCSVAux rest (!inQ) cell row rows
      else if c = ',' ∧ ¬inQ then
        parseCSVAux rest inQ [] (row ++ [cell]) rows
      else if c = '\r' ∧ rest.head? = some '\n' ∧ ¬inQ then
        parseCSVAux rest.tail inQ [] [] (rows ++ [row ++ [cell]])
      else if (c = '\n' ∨ c = '\r') ∧ ¬inQ then
        parseCSVAux rest inQ [] [] (rows ++ [row ++ [cell]])
      else
        parseCSVAux rest inQ (cell ++ [c]) row rows
termination_by l.length
decreasing_by
  all_goals simp [List.length_tail]
  all_goals omega

/-- `parseCSV` over character lists. -/
def parseCSVc (text : List Char) : List (List (List Char)) :=
  parseCSVAux text false [] [] []

/-- `parseCSV(text)` : raw text to a grid of string cells. -/
def parseCSV (text : String) : List (List String) :=
  (parseCSVc text.data).map (fun r => r.map String.mk)

/-! ### CSV encoder (`escapeCSV` inside `handleExportReport` in
`DashboardClient.tsx`). -/

/-- JS `stringValue.replace(/"/g, '""')`. -/
def escapeQuotes : List Char → List Char
  | [] => []
  | c :: r => if c = '"' then '"' :: '"' :: escapeQuotes r else c :: escapeQuotes r

/-- JS `stringValue.includes(',') || stringValue.includes('"') || stringValue.includes('\n')`. -/
def needsCSVQuote (s : List Char) : Bool :=
  s.contains ',' || s.contains '"' || s.contains '\n'

/-- `escapeCSV` on one cell (character-list form); `!value` yields `''`. -/
def escapeCSVc (s : List Char) : List Char :=
  if s = [] then []
  else if needsCSVQuote s then '"' :: (escapeQuotes s ++ ['"'])
  else s

/-- One row of `csvRows`: cells joined by `','`. -/
def encodeRowc (row : List (List Char)) : List Char :=
  List.intercalate [','] (row.map escapeCSVc)

/-- `csvContent`: rows joined by `'\n'` (character-list form). -/
def encodeCSVc (grid : List (List (List Char))) : List Char :=
  List.intercalate ['\n'] (grid.map encodeRowc)

/-- `csvContent` of `handleExportReport`, for a grid of string cells. -/
def encodeCSV (grid : List (List String)) : String :=
  String.mk (encodeCSVc (grid.map (fun row => row.map String.data)))

/-! ### Column resolver (`getCell` in `google-sheets.ts`). -/

/-- The `variations` synonym table of `getCell`, keyed by the normalised
canonical name. -/
def variationsTable (name : String) : List String :=
  if name = "about" then
    ["about section", "about me", "profile about", "bio", "summary",
     "description", "about_me", "aboutsection"]
  else if name = "first name" then
    ["firstname", "first_name", "fname", "first name", "firstname"]
  else if name = "last name" then
    ["lastname", "last_name", "lname", "surname", "last name", "lastname"]
  else if name = "linkedin post" then
    ["linkedin_post", "post url", "post_url", "linkedin url", "linkedin post", "posturl"]
  else if name = "linkedin post user" then
    ["linkedin_post_user", "post user", "post_user", "linkedin post user", "postuser"]
  else if name = "engagement type" then
    ["engagement_type", "engagement", "type", "engagement type", "engagementtype"]
  else if name = "comment text" then
    ["comment_text", "comment", "comments", "comment text", "commenttext"]
  else if name = "profile url" then
    ["profile_url", "profile url", "linkedin profile", "profile link", "profileurl", "profile_link"]
  else if name = "post topic" then
    ["post_topic", "topic", "post topic", "posttopic"]
  else if name = "company" then
    ["company", "comp", "organization", "org", "organisation"]
  else if name = "role" then
    ["role", "title", "position", "job title", "job_title", "jobtitle"]
  else if name = "headline" then
    ["headline", "head line", "head_line", "headline"]
  else if name = "post_url" then
    ["post_url", "post url", "posturl", "linkedin post url"]
  else if name = "sheet_link" then
    ["sheet_link", "sheet link", "sheetlink"]
  else []

/-- Tier-2 predicate: header contains the name or vice versa (with the JS
`!h` guard). -/
def headerMatchPartial (name h : String) : Bool :=
  h ≠ "" && (jsIncludes (norm h) name || jsIncludes name (norm h))

/-- Tier-3 predicate for one synonym: exact match first, then either-direction
substring. -/
def variationMatch (v h : String) : Bool :=
  h ≠ "" && (norm h = v || jsIncludes (norm h) v || jsIncludes v (norm h))

/-- Tier-3 loop: first synonym with any header match wins. -/
def findVariation (headers : List String) : List String → Option Nat
  | [] => none
  | v :: rest =>
      match headers.findIdx? (variationMatch v) with
      | some i => some i
      | none => findVariation headers rest

/-- Column index resolved by `getCell`: exact case-insensitive match, then
either-direction substring, then the synonym table. -/
def getCellIdx (headers : List String) (columnName : String) : Option Nat :=
  let normalizedName := norm columnName
  match headers.findIdx? (fun h => h ≠ "" && norm h = normalizedName) with
  | some i => some i
  | none =>
      match headers.findIdx? (headerMatchPartial normalizedName) with
      | some i => some i
      | none => findVariation headers (variationsTable normalizedName)

/-- `getCell(row, headers, columnName)`: resolved cell value, trimmed;
`null` when unresolved or the raw cell is empty/missing. -/
def getCell (row headers : List String) (columnName : String) : Option String :=
  match getCellIdx headers columnName with
  | none => none
  | some i =>
      let value := row.getD i ""
      if value = "" then none else some (jsTrim value)

/-! ### Sheet-classification flags of `fetchScrapedDataSheet`. -/

/-- `headers.map(h => h ? h.toLowerCase().trim() : '')`. -/
def normalizedHeaders (headers : List String) : List String :=
  headers.map (fun h => if h = "" then "" else norm h)

/-- `hasFirstName` flag. -/
def hasFirstNameCol (headers : List String) : Bool :=
  (normalizedHeaders headers).any
    (fun h => jsIncludes h "first name" || h = "firstname" || h = "first_name")

/-- `hasLastName` flag. -/
def hasLastNameCol (headers : List String) : Bool :=
  (normalizedHeaders headers).any
    (fun h => jsIncludes h "last name" || h = "lastname" || h = "last_name" || jsIncludes h "surname")

/-- `hasProfileUrl` flag. -/
def hasProfileUrlCol (headers : List String) : Bool :=
  (normalizedHeaders headers).any
    (fun h => jsIncludes h "profile url" || jsIncludes h "profileurl" ||
      jsIncludes h "profile link" || jsIncludes h "linkedin url")

/-- `hasLinkedInPost` flag. -/
def hasLinkedInPostCol (headers : List String) : Bool :=
  (normalizedHeaders headers).any
    (fun h => jsIncludes h "linkedin post" || jsIncludes h "linkedin_post" || jsIncludes h "post url")

/-- `hasLinkedInPostUser` flag. -/
def hasLinkedInPostUserCol (headers : List String) : Bool :=
  (normalizedHeaders headers).any
    (fun h => jsIncludes h "linkedin post user" || jsIncludes h "post user")

/-- `hasDM` flag: a column mentioning `dm` that is not a profile column. -/
def hasDMCol (headers : List String) : Bool :=
  (normalizedHeaders headers).any (fun h => jsIncludes h "dm" && !jsIncludes h "profile")

/-- `hasApproval` flag. -/
def hasApprovalCol (headers : List String) : Bool :=
  (normalizedHeaders headers).any (fun h => jsIncludes h "approval")

/-- `isDMSheet = hasDM && hasApproval`. -/
def isDMSheet (headers : List String) : Bool :=
  hasDMCol headers && hasApprovalCol headers

/-- `hasCoreColumns`: at least one name column and at least one of
profile-URL / post / post-user. -/
def hasCoreColumns (headers : List String) : Bool :=
  (hasFirstNameCol headers || hasLastNameCol headers) &&
  (hasProfileUrlCol headers || hasLinkedInPostCol headers || hasLinkedInPostUserCol headers)

/-! ### Scraped-data builder (`fetchScrapedDataSheet`). -/

inductive EngagementType where
  | Liked
  | Commented
deriving DecidableEq, Repr

/-- `ScrapedDataEntry` of `types.ts` (string-keyed fields renamed to
Lean-friendly identifiers). -/
structure ScrapedDataEntry where
  rowId : Nat
  linkedInPostUser : Option String
  linkedinPost : String
  firstName : String
  lastName : String
  profileUrl : String
  company : Option String
  role : Option String
  headline : Option String
  about : Option String
  engagementType : Option EngagementType
  commentText : Option String
  postTopic : Option String
  postGid : Nat
deriving DecidableEq, Repr

/-- Fallback header scan `headers.findIndex(h => h && h.toLowerCase().trim().includes('about'))`. -/
def aboutFallbackIdx (headers : List String) : Option Nat :=
  headers.findIdx? (fun h => h ≠ "" && jsIncludes (norm h) "about")

/-- The `About` value of a scraped row, with the raw-header fallback. -/
def scrapedAbout (row headers : List String) : Option String :=
  let a := getCell row headers "About"
  if optStr a = "" ∨ jsTrim (optStr a) = "" then
    match aboutFallbackIdx headers with
    | some i =>
        let v := row.getD i ""
        if v ≠ "" then (if jsTrim v = "" then none else some (jsTrim v)) else none
    | none => none
  else
    match a with
    | some v => if jsTrim v = "" then none else some (jsTrim v)
    | none => none

/-- Engagement classification: any non-blank value containing `comment` is
`Commented`, any other non-blank value is `Liked`. -/
def engagementOf (row headers : List String) : Option EngagementType :=
  let engagementValue :=
    strOr (optStr (getCell row headers "Engagement Type")) (optStr (getCell row headers "Engagement"))
  if engagementValue ≠ "" ∧ jsTrim engagementValue ≠ "" then
    if jsIncludes (jsLower (jsTrim engagementValue)) "comment" then some .Commented
    else some .Liked
  else none

/-- The resolved `Linkedin Post` value of a scraped row, including the
tab-level `postUrl` fallback (`getCell(...) || getCell(...) || postUrl || ''`). -/
def scrapedLinkedinPost (row headers : List String) (postUrl : Option String) : String :=
  strOr (optStr (getCell row headers "Linkedin Post"))
    (strOr (optStr (getCell row headers "LinkedIn Post")) (optStr postUrl))

/-- Row admission of `fetchScrapedDataSheet`: the row is not blank, has a
name, and has a profile URL, a (possibly tab-level) post URL, or a post
author.  The two `continue` statements of the source loop are folded into one
boolean. -/
def scrapedAdmit (headers : List String) (postUrl : Option String) (row : List String) : Bool :=
  !rowEmpty row &&
  (optStr (getCell row headers "First Name") ≠ "" || optStr (getCell row headers "Last Name") ≠ "") &&
  (optStr (getCell row headers "Profile URL") ≠ "" ||
   scrapedLinkedinPost row headers postUrl ≠ "" ||
   jsOptional (getCell row headers "LinkedIn Post User") ≠ none)

/-- The `ScrapedDataEntry` built from one admitted row. -/
def scrapedEntryOfRow (headers : List String) (postTopic postUrl : Option String)
    (gid : Nat) (counter : Nat) (row : List String) : ScrapedDataEntry :=
  { rowId := counter
    linkedInPostUser := jsOptional (getCell row headers "LinkedIn Post User")
    linkedinPost := scrapedLinkedinPost row headers postUrl
    firstName := optStr (getCell row headers "First Name")
    lastName := optStr (getCell row headers "Last Name")
    profileUrl := optStr (getCell row headers "Profile URL")
    company := optTrimmed (getCell row headers "Company")
    role := optTrimmed (getCell row headers "Role")
    headline := optTrimmed (getCell row headers "Headline")
    about := scrapedAbout row headers
    engagementType := engagementOf row headers
    commentText :=
      optTrimmed (some (strOr (optStr (getCell row headers "Comment Text"))
        (optStr (getCell row headers "Comment"))))
    postTopic := postTopic
    postGid := gid }

/-- The data-row loop of `fetchScrapedDataSheet`: `rowCounter` starts at 1 and
is incremented only when an entry is pushed. -/
def buildScraped (headers : List String) (postTopic postUrl : Option String) (gid : Nat) :
    Nat → List (List String) → List ScrapedDataEntry
  | _, [] => []
  | counter, row :: rest =>
      if scrapedAdmit headers postUrl row then
        scrapedEntryOfRow headers postTopic postUrl gid counter row ::
          buildScraped headers postTopic postUrl gid (counter + 1) rest
      else buildScraped headers postTopic postUrl gid counter rest

/-- Pure core of `fetchScrapedDataSheet` on an already-decoded grid: the
no-data guard, the DM-sheet priority check, the core-column signature, then
the row walk. -/
def scrapedEntriesOfRows (rows : List (List String)) (postTopic postUrl : Option String)
    (gid : Nat) : List ScrapedDataEntry :=
  if rows.length = 0 ∨ rows.length = 1 then []
  else
    let headers := rows.headD []
    if isDMSheet headers then []
    else if !hasCoreColumns headers then []
    else buildScraped headers postTopic postUrl gid 1 rows.tail

/-! ### Send-message builder (`fetchSendMessageData`). -/

inductive Approval where
  | approval
  | reject
  | sent
deriving DecidableEq, Repr

/-- `SendMessageEntry` of `types.ts`. -/
structure SendMessageEntry where
  rowId : Nat
  linkedinPost : String
  firstName : String
  lastName : String
  profileUrl : String
  headline : Option String
  company : Option String
  approval : Approval
deriving DecidableEq, Repr

/-- Normalisation of the `Approval` cell: recognised approve/reject/sent
spellings, everything else (including an absent cell) defaults to `approval`. -/
def normalizeApproval (cell : Option String) : Approval :=
  let approvalValue := strOr (optStr cell) "approval"
  let v := jsLower (jsTrim approvalValue)
  if v = "approve" ∨ v = "approved" ∨ v = "approval" then .approval
  else if v = "reject" ∨ v = "rejected" then .reject
  else if v = "sent" then .sent
  else .approval

/-- Row admission of `fetchSendMessageData`: not blank, and at least one of
First Name / Last Name / Profile URL resolves non-empty (the blank-row
`continue` and the `if (firstName || lastName || profileUrl)` push condition
folded into one boolean). -/
def sendMsgAdmit (headers row : List String) : Bool :=
  !rowEmpty row &&
  (optStr (getCell row headers "First Name") ≠ "" ||
   optStr (getCell row headers "Last Name") ≠ "" ||
   optStr (getCell row headers "Profile URL") ≠ "")

/-- The `SendMessageEntry` built from one admitted row. -/
def sendEntryOfRow (headers : List String) (counter : Nat) (row : List String) : SendMessageEntry :=
  { rowId := counter
    linkedinPost :=
      strOr (optStr (getCell row headers "Linkedin Post")) (optStr (getCell row headers "LinkedIn Post"))
    firstName := optStr (getCell row headers "First Name")
    lastName := optStr (getCell row headers "Last Name")
    profileUrl := optStr (getCell row headers "Profile URL")
    headline := optTrimmed (getCell row headers "Headline")
    company := optTrimmed (getCell row headers "Company")
    approval := normalizeApproval (getCell row headers "Approval") }

/-- The data-row loop of `fetchSendMessageData`. -/
def buildSendMessage (headers : List String) : Nat → List (List String) → List SendMessageEntry
  | _, [] => []
  | counter, row :: rest =>
      if sendMsgAdmit headers row then
        sendEntryOfRow headers counter row :: buildSendMessage headers (counter + 1) rest
      else buildSendMessage headers counter rest

/-- Pure core of `fetchSendMessageData` on an already-decoded grid. -/
def sendMessageEntriesOfRows (rows : List (List String)) : List SendMessageEntry :=
  if rows.length = 0 ∨ rows.length = 1 then []
  else buildSendMessage (rows.headD []) 1 rows.tail

/-- The sheet row (1-based, header is row 1) from which `fetchSendMessageData`
builds the entry with `rowId = ordinal`: re-runs the builder's admission walk
(`sendMsgAdmit`) over the data rows, counting only admitted rows.  `i` is the
array index of the current row in the full grid. -/
def builderRowForOrdinal (headers : List String) (ordinal : Nat) :
    Nat → Nat → List (List String) → Option Nat
  | _, _, [] => none
  | i, counter, row :: rest =>
      if sendMsgAdmit headers row then
        if counter + 1 = ordinal then some (i + 1)
        else builderRowForOrdinal headers ordinal (i + 1) (counter + 1) rest
      else builderRowForOrdinal headers ordinal (i + 1) counter rest

/-- Top-level: sheet row for an ordinal under the builder's own walk. -/
def builderTargetRow (rows : List (List String)) (ordinal : Nat) : Option Nat :=
  builderRowForOrdinal (rows.headD []) ordinal 1 0 rows.tail

/-! ### The update route `POST /api/message/update` (`route.ts`). -/

/-- `headers.findIndex(h => h && h.toLowerCase().includes('first name'))`. -/
def routeFirstNameCol (headers : List String) : Option Nat :=
  headers.findIdx? (fun h => h ≠ "" && jsIncludes (jsLower h) "first name")

/-- `headers.findIndex(h => h && h.toLowerCase().includes('last name'))`. -/
def routeLastNameCol (headers : List String) : Option Nat :=
  headers.findIdx? (fun h => h ≠ "" && jsIncludes (jsLower h) "last name")

/-- `headers.findIndex(h => h && (h.toLowerCase().includes('linkedin post') || h.toLowerCase().includes('linkedin_post')))`. -/
def routeLinkedInPostCol (headers : List String) : Option Nat :=
  headers.findIdx?
    (fun h => h ≠ "" && (jsIncludes (jsLower h) "linkedin post" || jsIncludes (jsLower h) "linkedin_post"))

/-- `headers.findIndex(h => h && h.toLowerCase().includes('profile url'))`. -/
def routeProfileUrlCol (headers : List String) : Option Nat :=
  headers.findIdx? (fun h => h ≠ "" && jsIncludes (jsLower h) "profile url")

/-- `headers.findIndex(h => h && h.toLowerCase().trim().includes('approval'))`. -/
def routeApprovalCol (headers : List String) : Option Nat :=
  headers.findIdx? (fun h => h ≠ "" && jsIncludes (norm h) "approval")

/-- `(row[col] || '').toString().trim()`, with `''` when the column was not
found (`col === -1`). -/
def routeCellAt (row : List String) (col : Option Nat) : String :=
  match col with
  | none => ""
  | some c => jsTrim (row.getD c "")

/-- The route's per-row admission: not blank, and a non-empty first name,
last name, or profile URL at the directly-resolved columns (the blank-row
`continue` and the count condition folded into one boolean). -/
def routeAdmit (headers row : List String) : Bool :=
  !rowEmpty row &&
  (routeCellAt row (routeFirstNameCol headers) ≠ "" ||
   routeCellAt row (routeLastNameCol headers) ≠ "" ||
   routeCellAt row (routeProfileUrlCol headers) ≠ "")

/-- The route's row-resolution loop: `i` is the array index of the current
row in the full grid, `counter` the admitted-row count so far.  Returns the
resolved `targetRowIndex` (`i + 1`) and the final `entryCounter`. -/
def routeWalk (headers : List String) (rowIdNum : Nat) :
    Nat → Nat → List (List String) → Option Nat × Nat
  | _, counter, [] => (none, counter)
  | i, counter, row :: rest =>
      if routeAdmit headers row then
        if counter + 1 = rowIdNum then (some (i + 1), counter + 1)
        else routeWalk headers rowIdNum (i + 1) (counter + 1) rest
      else routeWalk headers rowIdNum (i + 1) counter rest

/-- The sheet row the route resolves for a rowId (starting at array index 1,
the first data row). -/
def routeTargetRow (rows : List (List String)) (rowIdNum : Nat) : Option Nat :=
  (routeWalk (rows.headD []) rowIdNum 1 0 rows.tail).1

/-- `approvalMap`: internal lowercase tag to the sheet's display vocabulary. -/
def approvalMap (a : String) : String :=
  if a = "approval" then "Approved"
  else if a = "reject" then "Rejected"
  else if a = "sent" then "Sent"
  else a

/-- Outcome of the route up to the single write request: a 400 validation
response, a 500 from a thrown error (no write issued), or the JSON body
posted to the Apps Script sink. -/
inductive RouteResult where
  | badRequest (msg : String)
  | failedUpdate (details : String)
  | write (row column : Nat) (value firstName lastName linkedinPost : String)
deriving DecidableEq, Repr

/-- The thrown row-not-found message. -/
def rowNotFoundMsg (rowId checked total : Nat) : String :=
  "Row with rowId " ++ toString rowId ++ " not found. Checked " ++ toString checked ++
    " valid entries in sheet with " ++ toString total ++ " total rows."

/-- Pure core of the `POST /api/message/update` handler, given the freshly
fetched and parsed grid and the configured script URL.  Mirrors the source
order: body validation, grid-shape checks, approval-column lookup, the
rowId walk, the script-URL check, then the write request. -/
def messageUpdatePOST (rows : List (List String)) (scriptUrl : Option String)
    (rowId : Nat) (approval linkedinPost firstName lastName : String) : RouteResult :=
  if rowId = 0 ∨ approval = "" then
    .badRequest "Missing required fields: rowId, approval"
  else if ¬(approval = "approval" ∨ approval = "reject" ∨ approval = "sent") then
    .badRequest "Invalid approval status. Must be one of: approval, reject, sent"
  else if rows.length < 2 then
    .failedUpdate "Sheet has no data rows. Please ensure the Send_Message sheet has at least a header row and one data row."
  else
    let headers := rows.headD []
    if headers.length = 0 then
      .failedUpdate "Sheet has no headers. Please check the Send_Message sheet structure."
    else
      match routeApprovalCol headers with
      | none => .failedUpdate "Approval column not found in sheet."
      | some approvalColumnIndex =>
          match routeWalk headers rowId 1 0 rows.tail with
          | (none, checked) => .failedUpdate (rowNotFoundMsg rowId checked rows.length)
          | (some targetRowIndex, _) =>
              if targetRowIndex > rows.length then
                .failedUpdate ("Row " ++ toString targetRowIndex ++ " does not exist in sheet. Sheet has " ++
                  toString rows.length ++ " rows.")
              else
                match scriptUrl with
                | none => .failedUpdate "GOOGLE_APPS_SCRIPT_URL not configured. Please set up Google Apps Script in your sheet."
                | some _ =>
                    .write targetRowIndex (approvalColumnIndex + 1) (approvalMap approval)
                      firstName lastName linkedinPost

/-! ### Unified-lead merge (`allLeads` in `DashboardClient.tsx`). -/

/-- The simplified `DMEntry` (Combined Leads sheet) of `types.ts`. -/
structure DMEntry where
  rowId : Nat
  linkedinPost : String
  firstName : String
  lastName : String
  profileUrl : String
  postTopic : Option String
deriving DecidableEq, Repr

inductive LeadSource where
  | scraped
  | combined
deriving DecidableEq, Repr

/-- The unified lead shape produced by `allLeads`. -/
structure UnifiedLead where
  rowId : String
  linkedinPost : String
  firstName : String
  lastName : String
  profileUrl : String
  source : LeadSource
deriving DecidableEq, Repr

/-- The dedup key: `` `${lead['Linkedin Post']}_${lead['First Name']}_${lead['Last Name']}` ``. -/
def leadKey (l : UnifiedLead) : String :=
  l.linkedinPost ++ "_" ++ l.firstName ++ "_" ++ l.lastName

/-- The `forEach` dedup loop: keep a lead iff its key is not in `seen`. -/
def mergeDedup : List UnifiedLead → List String → List UnifiedLead
  | [], _ => []
  | l :: rest, seen =>
      if leadKey l ∈ seen then mergeDedup rest seen
      else l :: mergeDedup rest (leadKey l :: seen)

/-- The concatenation `[...scrapedLeads, ...combinedLeads]` over which the
dedup loop runs: scraped entries converted first, then combined leads. -/
def unifiedCandidates (scrapedData : List ScrapedDataEntry) (dmData : List DMEntry) :
    List UnifiedLead :=
  scrapedData.map (fun entry =>
    { rowId := "scraped-" ++ toString entry.rowId
      linkedinPost := entry.linkedinPost
      firstName := entry.firstName
      lastName := entry.lastName
      profileUrl := entry.profileUrl
      source := .scraped }) ++
  dmData.map (fun entry =>
    { rowId := "combined-" ++ toString entry.rowId
      linkedinPost := entry.linkedinPost
      firstName := entry.firstName
      lastName := entry.lastName
      profileUrl := entry.profileUrl
      source := .combined })

/-- `allLeads`: the candidate list deduplicated first-seen-wins on the raw key. -/
def allLeads (scrapedData : List ScrapedDataEntry) (dmData : List DMEntry) : List UnifiedLead :=
  mergeDedup (unifiedCandidates scrapedData dmData) []

/-- `normalizeUrl` of `DashboardClient.tsx`: trim, lower-case, strip the
protocol, a leading `www.`, and one trailing slash. -/
def normalizeUrl (url : String) : String :=
  if url = "" then ""
  else
    let s := (jsLower (jsTrim url)).data
    let s := if ("https://".data).isPrefixOf s then s.drop 8
             else if ("http://".data).isPrefixOf s then s.drop 7
             else s
    let s := if ("www.".data).isPrefixOf s then s.drop 4 else s
    let s := if s.getLast? = some '/' then s.dropLast else s
    String.mk s

/-! ### Client-side approval handler (`handleMessageApprovalUpdate`). -/

/-- What the handler does before/instead of the network call: the two early
returns (alerts, no fetch), or the body of the `fetch('/api/message/update')`
call. -/
inductive ClientUpdateAction where
  | blockedSentTarget
  | blockedAlreadySent
  | apiCall (rowId : Nat) (approval : Approval) (linkedinPost firstName lastName : String)
deriving DecidableEq, Repr

/-- Decision core of `handleMessageApprovalUpdate`: reject a `sent` target,
reject any change to an already-`sent` entry, otherwise issue the API call. -/
def handleMessageApprovalUpdate (entry : SendMessageEntry) (newApproval : Approval) :
    ClientUpdateAction :=
  if newApproval = .sent then .blockedSentTarget
  else if entry.approval = .sent then .blockedAlreadySent
  else .apiCall entry.rowId newApproval entry.linkedinPost entry.firstName entry.lastName

/-! ## Lemmas about the CSV state machine -/

theorem parseCSVAux_nil (inQ : Bool) (cell : List Char) (row : List (List Char))
    (rows : List (List (List Char))) :
    parseCSVAux [] inQ cell row rows =
      if cell = [] ∧ row = [] then rows else rows ++ [row ++ [cell]] := by
  rw [parseCSVAux]

theorem parseCSVAux_inq_other (c : Char) (rest : List Char) (cell : List Char)
    (row : List (List Char)) (rows : List (List (List Char))) (h : c ≠ '"') :
    parseCSVAux (c :: rest) true cell row rows = parseCSVAux rest true (cell ++ [c]) row rows := by
  rw [parseCSVAux]
  rw [if_neg (by simp [h]), if_neg h, if_neg (by simp), if_neg (by simp), if_neg (by simp)]

theorem parseCSVAux_noq_other (c : Char) (rest : List Char) (cell : List Char)
    (row : List (List Char)) (rows : List (List (List Char)))
    (h1 : c ≠ ',') (h2 : c ≠ '"') (h3 : c ≠ '\n') (h4 : c ≠ '\r') :
    parseCSVAux (c :: rest) false cell row rows = parseCSVAux rest false (cell ++ [c]) row rows := by
  rw [parseCSVAux]
  rw [if_neg (by simp), if_neg h2, if_neg (by simp [h1]), if_neg (by simp [h4]),
    if_neg (by simp [h3, h4])]

theorem parseCSVAux_quote_toggle (rest : List Char) (inQ : Bool) (cell : List Char)
    (row : List (List Char)) (rows : List (List (List Char)))
    (h : ¬(inQ = true ∧ rest.head? = some '"')) :
    parseCSVAux ('"' :: rest) inQ cell row rows = parseCSVAux rest (!inQ) cell row rows := by
  rw [parseCSVAux]
  rw [if_neg (by rintro ⟨hq, _, hh⟩; exact h ⟨hq, hh⟩), if_pos rfl]

theorem parseCSVAux_quote_escape (rest : List Char) (cell : List Char)
    (row : List (List Char)) (rows : List (List (List Char))) :
    parseCSVAux ('"' :: '"' :: rest) true cell row rows =
      parseCSVAux rest true (cell ++ ['"']) row rows := by
  rw [parseCSVAux]
  rw [if_pos ⟨rfl, rfl, rfl⟩]
  rfl

theorem parseCSVAux_comma (rest : List Char) (cell : List Char)
    (row : List (List Char)) (rows : List (List (List Char))) :
    parseCSVAux (',' :: rest) false cell row rows =
      parseCSVAux rest false [] (row ++ [cell]) rows := by
  rw [parseCSVAux]
  rw [if_neg (by simp), if_neg (by simp), if_pos ⟨rfl, by simp⟩]

theorem parseCSVAux_newline (rest : List Char) (cell : List Char)
    (row : List (List Char)) (rows : List (List (List Char))) :
    parseCSVAux ('\n' :: rest) false cell row rows =
      parseCSVAux rest false [] [] (rows ++ [row ++ [cell]]) := by
  rw [parseCSVAux]
  rw [if_neg (by simp), if_neg (by simp), if_neg (by simp), if_neg (by simp),
    if_pos ⟨Or.inl rfl, by simp⟩]

/-- Outside quotes, a run of non-special characters is accumulated into the
current cell. -/
theorem parseCSVAux_plain (s : List Char)
    (hs : ∀ c ∈ s, c ≠ ',' ∧ c ≠ '"' ∧ c ≠ '\n' ∧ c ≠ '\r') :
    ∀ (t cell : List Char) (row : List (List Char)) (rows : List (List (List Char))),
      parseCSVAux (s ++ t) false cell row rows = parseCSVAux t false (cell ++ s) row rows := by
  induction s with
  | nil => intro t cell row rows; simp
  | cons c s' ih =>
      intro t cell row rows
      obtain ⟨h1, h2, h3, h4⟩ := hs c (by simp)
      rw [List.cons_append, parseCSVAux_noq_other c (s' ++ t) cell row rows h1 h2 h3 h4,
        ih (fun x hx => hs x (by simp [hx])) t (cell ++ [c]) row rows]
      simp

/-- Inside quotes, any quote-free run is accumulated literally (delimiters and
newlines included). -/
theorem parseCSVAux_inQuotes (s : List Char) (hs : ('"' : Char) ∉ s) :
    ∀ (t cell : List Char) (row : List (List Char)) (rows : List (List (List Char))),
      parseCSVAux (s ++ t) true cell row rows = parseCSVAux t true (cell ++ s) row rows := by
  induction s with
  | nil => intro t cell row rows; simp
  | cons c s' ih =>
      intro t cell row rows
      have hc : c ≠ '"' := fun h => hs (by simp [h])
      rw [List.cons_append, parseCSVAux_inq_other c (s' ++ t) cell row rows hc,
        ih (fun h => hs (by simp [h])) t (cell ++ [c]) row rows]
      simp

/-- Processing doubled-quote-escaped content inside quotes recovers the
original characters, and the closing quote leaves quote mode. -/
theorem parseCSVAux_escaped (s : List Char) :
    ∀ (t : List Char), t.head? ≠ some '"' →
    ∀ (cell : List Char) (row : List (List Char)) (rows : List (List (List Char))),
      parseCSVAux (escapeQuotes s ++ ('"' :: t)) true cell row rows =
        parseCSVAux t false (cell ++ s) row rows := by
  induction s with
  | nil =>
      intro t ht cell row rows
      rw [escapeQuotes, List.nil_append,
        parseCSVAux_quote_toggle t true cell row rows (by rintro ⟨_, hh⟩; exact ht hh)]
      simp
  | cons c s' ih =>
      intro t ht cell row rows
      rw [escapeQuotes]
      by_cases hc : c = '"'
      · subst hc
        rw [if_pos rfl, List.cons_append, List.cons_append, parseCSVAux_quote_escape,
          ih t ht (cell ++ ['"']) row rows]
        simp
      · rw [if_neg hc, List.cons_append,
          parseCSVAux_inq_other c (escapeQuotes s' ++ ('"' :: t)) cell row rows hc,
          ih t ht (cell ++ [c]) row rows]
        simp

/-- A `needsCSVQuote`-free cell has no special characters besides possibly `\r`. -/
theorem needsCSVQuote_false (s : List Char) (h : needsCSVQuote s = false) :
    ∀ c ∈ s, c ≠ ',' ∧ c ≠ '"' ∧ c ≠ '\n' := by
  intro c hc
  simp only [needsCSVQuote, List.contains, Bool.or_eq_false_iff, List.elem_eq_mem,
    decide_eq_false_iff_not] at h
  obtain ⟨⟨h1, h2⟩, h3⟩ := h
  exact ⟨fun he => h1 (he ▸ hc), fun he => h2 (he ▸ hc), fun he => h3 (he ▸ hc)⟩

/-- Decoding one `escapeCSV`-encoded cell appends exactly the original cell
content, provided the cell has no carriage return and the encoded cell is
followed by a delimiter, a newline, or the end of input. -/
theorem parseCSVAux_cell (s : List Char) (hr : ('\r' : Char) ∉ s)
    (t : List Char) (ht : t = [] ∨ t.head? = some ',' ∨ t.head? = some '\n')
    (cell : List Char) (row : List (List Char)) (rows : List (List (List Char))) :
    parseCSVAux (escapeCSVc s ++ t) false cell row rows =
      parseCSVAux t false (cell ++ s) row rows := by
  rw [escapeCSVc]
  by_cases hnil : s = []
  · subst hnil; simp
  · rw [if_neg hnil]
    by_cases hq : needsCSVQuote s = true
    · rw [if_pos hq]
      have ht' : t.head? ≠ some '"' := by
        rcases ht with h | h | h <;> simp [h]
      rw [List.cons_append, List.append_assoc, List.singleton_append,
        parseCSVAux_quote_toggle (escapeQuotes s ++ '"' :: t) false cell row rows (by simp)]
      simp only [Bool.not_false]
      rw [parseCSVAux_escaped s t ht' cell row rows]
    · rw [if_neg hq]
      have hs := needsCSVQuote_false s (by simpa using hq)
      exact parseCSVAux_plain s
        (fun c hc => ⟨(hs c hc).1, (hs c hc).2.1, (hs c hc).2.2, fun he => hr (he ▸ hc)⟩)
        t cell row rows

theorem encodeRowc_singleton (a : List Char) : encodeRowc [a] = escapeCSVc a := by
  simp [encodeRowc, List.intercalate]

theorem encodeRowc_cons (a b : List Char) (l : List (List Char)) :
    encodeRowc (a :: b :: l) = escapeCSVc a ++ ',' :: encodeRowc (b :: l) := by
  simp [encodeRowc, List.intercalate, List.intersperse]

/-- Decoding one encoded row (followed by a newline or the end of input)
reconstructs the row's cells into the accumulator. -/
theorem parseCSVAux_row (init : List (List Char)) (c : List Char)
    (hr : ∀ x ∈ init ++ [c], ('\r' : Char) ∉ x) :
    ∀ (t : List Char), (t = [] ∨ t.head? = some '\n') →
    ∀ (acc : List (List Char)) (rows : List (List (List Char))),
      parseCSVAux (encodeRowc (init ++ [c]) ++ t) false [] acc rows =
        parseCSVAux t false c (acc ++ init) rows := by
  induction init generalizing c with
  | nil =>
      intro t ht acc rows
      rw [List.nil_append, encodeRowc_singleton,
        parseCSVAux_cell c (hr c (by simp)) t (by tauto) [] acc rows]
      simp
  | cons c0 init' ih =>
      intro t ht acc rows
      obtain ⟨b, l, hbl⟩ : ∃ b l, init' ++ [c] = b :: l := by
        cases init' with
        | nil => exact ⟨c, [], rfl⟩
        | cons x xs => exact ⟨x, xs ++ [c], rfl⟩
      have hcons : encodeRowc ((c0 :: init') ++ [c]) =
          escapeCSVc c0 ++ ',' :: encodeRowc (init' ++ [c]) := by
        rw [List.cons_append, hbl, encodeRowc_cons, ← hbl]
      rw [hcons, List.append_assoc, List.cons_append,
        parseCSVAux_cell c0 (hr c0 (by simp)) (',' :: (encodeRowc (init' ++ [c]) ++ t))
          (by simp) [] acc rows,
        List.nil_append, parseCSVAux_comma,
        ih c (fun x hx => hr x (by simp at hx ⊢; tauto)) t ht (acc ++ [c0]) rows]
      simp

theorem encodeCSVc_singleton (r : List (List Char)) : encodeCSVc [r] = encodeRowc r := by
  simp [encodeCSVc, List.intercalate]

theorem encodeCSVc_cons (r r2 : List (List Char)) (g : List (List (List Char))) :
    encodeCSVc (r :: r2 :: g) = encodeRowc r ++ '\n' :: encodeCSVc (r2 :: g) := by
  simp [encodeCSVc, List.intercalate, List.intersperse]

/-- Decoding an encoded grid appends exactly the original grid, provided every
row has at least one cell, no cell contains a carriage return, and the last
row is not the single empty cell. -/
theorem parseCSVAux_grid :
    ∀ (g : List (List (List Char))), (∀ r ∈ g, r ≠ []) →
    (∀ r ∈ g, ∀ x ∈ r, ('\r' : Char) ∉ x) → g.getLast? ≠ some [[]] →
    ∀ rows, parseCSVAux (encodeCSVc g) false [] [] rows = rows ++ g := by
  intro g
  induction g with
  | nil => intro _ _ _ rows; simp [encodeCSVc, List.intercalate, parseCSVAux_nil]
  | cons r g' ih =>
      intro hne hr hlast rows
      have hrne : r ≠ [] := hne r (by simp)
      obtain ⟨init, c, hic⟩ : ∃ init c, r = init ++ [c] :=
        ⟨r.dropLast, r.getLast hrne, (List.dropLast_append_getLast hrne).symm⟩
      subst hic
      cases g' with
      | nil =>
          rw [encodeCSVc_singleton, ← List.append_nil (encodeRowc (init ++ [c])),
            parseCSVAux_row init c (hr _ (by simp)) [] (Or.inl rfl) [] rows,
            parseCSVAux_nil]
          have hno : ¬(c = [] ∧ [] ++ init = []) := by
            rintro ⟨hc, hi⟩
            simp only [List.nil_append] at hi
            exact hlast (by rw [hi, hc]; rfl)
          rw [if_neg hno]
          simp
      | cons r2 g'' =>
          rw [encodeCSVc_cons,
            parseCSVAux_row init c (hr _ (by simp)) ('\n' :: encodeCSVc (r2 :: g''))
              (Or.inr rfl) [] rows,
            parseCSVAux_newline,
            ih (fun x hx => hne x (by simp [hx])) (fun x hx => hr x (by simp [hx]))
              (by rw [← List.getLast?_cons_cons (a := init ++ [c])]; exact hlast)
              (rows ++ [[] ++ init ++ [c]])]
          simp

/-- Character-level round trip: `parseCSV` after the export's encoder. -/
theorem parseCSVc_encodeCSVc (g : List (List (List Char))) (hne : ∀ r ∈ g, r ≠ [])
    (hr : ∀ r ∈ g, ∀ x ∈ r, ('\r' : Char) ∉ x) (hlast : g.getLast? ≠ some [[]]) :
    parseCSVc (encodeCSVc g) = g := by
  rw [parseCSVc, parseCSVAux_grid g hne hr hlast []]
  simp

/-! ## C8: CSV encode-then-decode round trip -/

/-- C8 counterexample: the round trip is not exact for every grid of strings.
A cell containing a bare carriage return is left unquoted by `escapeCSV`
(which only tests for comma, quote and `\n`), and `parseCSV` then treats the
`\r` as a row terminator, splitting the single cell into two rows. -/
theorem csv_roundtrip_cex :
    parseCSV (encodeCSV [["a\rb"]]) ≠ [["a\rb"]] ∧
    parseCSV (encodeCSV [["a\rb"]]) = [["a"], ["b"]] ∧
    parseCSV (encodeCSV [[""]]) = [] := by
  have he : encodeCSV [["a\rb"]] = "a\rb" := by decide
  have h2 : parseCSV (encodeCSV [["a\rb"]]) = [["a"], ["b"]] := by
    rw [he]
    simp +decide [parseCSV, parseCSVc, parseCSVAux]
  have he2 : encodeCSV [[""]] = "" := by decide
  refine ⟨by rw [h2]; decide, h2, ?_⟩
  rw [he2]
  simp +decide [parseCSV, parseCSVc, parseCSVAux]

/-- C8 (amended): for every grid in which each row has at least one cell, no
cell contains a carriage return, and the last row is not the single empty
cell, encoding with `escapeCSV`-per-cell joined by commas and newlines and
then decoding with `parseCSV` reproduces the grid exactly — in particular for
cells containing commas, double quotes, and embedded `\n` newlines. -/
theorem csv_roundtrip (g : List (List String))
    (hne : ∀ r ∈ g, r ≠ [])
    (hcr : ∀ r ∈ g, ∀ s ∈ r, ('\r' : Char) ∉ s.data)
    (hlast : g.getLast? ≠ some [""]) :
    parseCSV (encodeCSV g) = g := by
  have hmk : ∀ s : String, String.mk s.data = s := fun s => by cases s; rfl
  have h1 : ∀ r ∈ g.map (fun row => row.map String.data), r ≠ [] := by
    intro r hrG
    obtain ⟨row, hrow, hmap⟩ := List.mem_map.mp hrG
    subst hmap
    simpa using hne row hrow
  have h2 : ∀ r ∈ g.map (fun row => row.map String.data), ∀ x ∈ r, ('\r' : Char) ∉ x := by
    intro r hrG x hx
    obtain ⟨row, hrow, hmap⟩ := List.mem_map.mp hrG
    subst hmap
    obtain ⟨s, hs, hsd⟩ := List.mem_map.mp hx
    subst hsd
    exact hcr row hrow s hs
  have h3 : (g.map (fun row => row.map String.data)).getLast? ≠ some [[]] := by
    rw [List.getLast?_map]
    intro hcontra
    rcases hop : g.getLast? with _ | r
    · rw [hop] at hcontra; simp at hcontra
    · rw [hop] at hcontra
      simp only [Option.map_some'] at hcontra
      have hr2 : r.map String.data = [[]] := by injection hcontra
      have hre : r = [""] := by
        cases r with
        | nil => simp at hr2
        | cons a t =>
            cases t with
            | nil =>
                have ha : a.data = [] := by simpa using hr2
                have ha2 : a = "" := by rw [← hmk a, ha]
                rw [ha2]
            | cons b t2 => simp at hr2
      exact hlast (hop.trans (by rw [hre]))
  have hG := parseCSVc_encodeCSVc (g.map (fun row => row.map String.data)) h1 h2 h3
  calc parseCSV (encodeCSV g)
      = (parseCSVc (encodeCSVc (g.map (fun row => row.map String.data)))).map
          (fun r => r.map String.mk) := rfl
    _ = (g.map (fun row => row.map String.data)).map (fun r => r.map String.mk) := by rw [hG]
    _ = g := by
        rw [List.map_map]
        refine List.map_id'' (fun row => ?_) g
        simp only [Function.comp]
        rw [List.map_map]
        exact List.map_id'' (fun s => hmk s) row

/-- C8 witness: the amended round trip on a concrete grid whose cells contain
a comma, a double quote, an embedded newline, and an empty cell. -/
theorem csv_roundtrip_witness :
    parseCSV (encodeCSV [["a,b", "c\"d"], ["e\nf", ""]]) = [["a,b", "c\"d"], ["e\nf", ""]] :=
  csv_roundtrip [["a,b", "c\"d"], ["e\nf", ""]] (by decide) (by decide) (by decide)

/-! ## C9: the decoder is total and never fails -/

/-- C9: `parseCSV` is a total function (it terminates on every input by
construction); the empty input yields zero rows; a trailing row with no final
newline is still emitted; and after an unbalanced opening quote every
delimiter and newline up to a closing quote or the end of input is consumed
as literal cell content, still producing a grid. -/
theorem parseCSV_total_behavior :
    parseCSVc [] = [] ∧
    (∀ s : List Char, s ≠ [] → (∀ c ∈ s, c ≠ ',' ∧ c ≠ '"' ∧ c ≠ '\n' ∧ c ≠ '\r') →
      parseCSVc s = [[s]]) ∧
    (∀ s : List Char, s ≠ [] → ('"' : Char) ∉ s → parseCSVc ('"' :: s) = [[s]]) ∧
    (∀ s : List Char, s ≠ [] → ('"' : Char) ∉ s → parseCSVc ('"' :: s ++ ['"']) = [[s]]) := by
  refine ⟨by rw [parseCSVc, parseCSVAux_nil]; simp, ?_, ?_, ?_⟩
  · intro s hne hs
    have h := parseCSVAux_plain s hs [] [] [] []
    rw [List.append_nil, List.nil_append] at h
    rw [parseCSVc, h, parseCSVAux_nil, if_neg (by rintro ⟨hc, _⟩; exact hne hc)]
    simp
  · intro s hne hq
    rw [parseCSVc, parseCSVAux_quote_toggle s false [] [] []
      (by rintro ⟨h, _⟩; exact Bool.false_ne_true h)]
    simp only [Bool.not_false]
    have h := parseCSVAux_inQuotes s hq [] [] [] []
    rw [List.append_nil, List.nil_append] at h
    rw [h, parseCSVAux_nil, if_neg (by rintro ⟨hc, _⟩; exact hne hc)]
    simp
  · intro s hne hq
    rw [parseCSVc, List.cons_append, parseCSVAux_quote_toggle (s ++ ['"']) false [] [] []
      (by rintro ⟨h, _⟩; exact Bool.false_ne_true h)]
    simp only [Bool.not_false]
    rw [parseCSVAux_inQuotes s hq ['"'] [] [] [], List.nil_append,
      parseCSVAux_quote_toggle [] true s [] [] (by rintro ⟨_, h⟩; simp at h),
      Bool.not_true, parseCSVAux_nil, if_neg (by rintro ⟨hc, _⟩; exact hne hc)]
    simp

/-- C9 witness: concrete instances — the empty input, a plain trailing row
without a final newline, and an unbalanced quote whose following comma and
newline are consumed literally. -/
theorem parseCSV_total_behavior_witness :
    parseCSVc [] = [] ∧
    parseCSVc "abc".data = [["abc".data]] ∧
    parseCSVc ('"' :: "a,b\nc".data) = [["a,b\nc".data]] :=
  ⟨parseCSV_total_behavior.1,
   parseCSV_total_behavior.2.1 "abc".data (by decide) (by decide),
   parseCSV_total_behavior.2.2.1 "a,b\nc".data (by decide) (by decide)⟩

/-! ## Builder counting and ordinal lemmas -/

theorem buildScraped_length (headers : List String) (pt pu : Option String) (gid : Nat) :
    ∀ (rows : List (List String)) (c : Nat),
      (buildScraped headers pt pu gid c rows).length = rows.countP (scrapedAdmit headers pu) := by
  intro rows
  induction rows with
  | nil => intro c; simp [buildScraped]
  | cons row rest ih =>
      intro c
      rw [buildScraped]
      by_cases h : scrapedAdmit headers pu row
      · rw [if_pos h]
        simp [List.countP_cons, h, ih (c + 1)]
      · rw [if_neg h]
        simp [List.countP_cons, h, ih c]

theorem buildSendMessage_length (headers : List String) :
    ∀ (rows : List (List String)) (c : Nat),
      (buildSendMessage headers c rows).length = rows.countP (sendMsgAdmit headers) := by
  intro rows
  induction rows with
  | nil => intro c; simp [buildSendMessage]
  | cons row rest ih =>
      intro c
      rw [buildSendMessage]
      by_cases h : sendMsgAdmit headers row
      · rw [if_pos h]
        simp [List.countP_cons, h, ih (c + 1)]
      · rw [if_neg h]
        simp [List.countP_cons, h, ih c]

theorem buildScraped_rowIds (headers : List String) (pt pu : Option String) (gid : Nat) :
    ∀ (rows : List (List String)) (c : Nat),
      (buildScraped headers pt pu gid c rows).map (fun e => e.rowId) =
        List.range' c (buildScraped headers pt pu gid c rows).length := by
  intro rows
  induction rows with
  | nil => intro c; simp [buildScraped]
  | cons row rest ih =>
      intro c
      rw [buildScraped]
      by_cases h : scrapedAdmit headers pu row
      · rw [if_pos h]
        simp only [List.map_cons, List.length_cons, List.range'_succ]
        exact List.cons_eq_cons.mpr ⟨rfl, ih (c + 1)⟩
      · rw [if_neg h]
        exact ih c

theorem buildSendMessage_rowIds (headers : List String) :
    ∀ (rows : List (List String)) (c : Nat),
      (buildSendMessage headers c rows).map (fun e => e.rowId) =
        List.range' c (buildSendMessage headers c rows).length := by
  intro rows
  induction rows with
  | nil => intro c; simp [buildSendMessage]
  | cons row rest ih =>
      intro c
      rw [buildSendMessage]
      by_cases h : sendMsgAdmit headers row
      · rw [if_pos h]
        simp only [List.map_cons, List.length_cons, List.range'_succ]
        exact List.cons_eq_cons.mpr ⟨rfl, ih (c + 1)⟩
      · rw [if_neg h]
        exact ih c

/-! ## C7: ordinals are dense over retained rows -/

/-- C7: for every decoded tab, the `rowId` values emitted by the scraped-data
builder and by the send-message builder are exactly `1, 2, …, n` in emission
order — 1-based, increasing by exactly one, assigned only to admitted rows,
regardless of how many raw rows were skipped. -/
theorem ordinals_dense :
    (∀ (rows : List (List String)) (postTopic postUrl : Option String) (gid : Nat),
      (scrapedEntriesOfRows rows postTopic postUrl gid).map (fun e => e.rowId) =
        List.range' 1 (scrapedEntriesOfRows rows postTopic postUrl gid).length) ∧
    (∀ rows : List (List String),
      (sendMessageEntriesOfRows rows).map (fun e => e.rowId) =
        List.range' 1 (sendMessageEntriesOfRows rows).length) := by
  constructor
  · intro rows pt pu gid
    simp only [scrapedEntriesOfRows]
    by_cases h1 : rows.length = 0 ∨ rows.length = 1
    · rw [if_pos h1]; simp
    · rw [if_neg h1]
      by_cases h2 : isDMSheet (rows.headD []) = true
      · rw [if_pos h2]; simp
      · rw [if_neg h2]
        by_cases h3 : (!hasCoreColumns (rows.headD [])) = true
        · rw [if_pos h3]; simp
        · rw [if_neg h3]
          exact buildScraped_rowIds (rows.headD []) pt pu gid rows.tail 1
  · intro rows
    simp only [sendMessageEntriesOfRows]
    by_cases h1 : rows.length = 0 ∨ rows.length = 1
    · rw [if_pos h1]; simp
    · rw [if_neg h1]
      exact buildSendMessage_rowIds (rows.headD []) rows.tail 1

/-! ## C10: send-message admission and approval normalisation -/

/-- C10: `fetchSendMessageData` admits a data row iff the row is not entirely
blank and at least one of First Name / Last Name / Profile URL resolves
non-empty; a non-blank row with a first name alone is admitted (no post URL,
post author, DM body or approval value required); the emitted entry's
approval is the normalisation of the `Approval` cell, and any value outside
the recognised approve/reject/sent spellings — including an absent cell —
normalises to the default `approval` state. -/
theorem sendMessage_admission :
    (∀ (headers : List String) (rows : List (List String)) (c : Nat),
      (buildSendMessage headers c rows).length = rows.countP (sendMsgAdmit headers)) ∧
    (∀ headers row : List String,
      sendMsgAdmit headers row =
        (!rowEmpty row &&
          (optStr (getCell row headers "First Name") ≠ "" ||
           optStr (getCell row headers "Last Name") ≠ "" ||
           optStr (getCell row headers "Profile URL") ≠ ""))) ∧
    (∀ headers row : List String, rowEmpty row = false →
      optStr (getCell row headers "First Name") ≠ "" → sendMsgAdmit headers row = true) ∧
    (∀ (headers : List String) (c : Nat) (row : List String),
      (sendEntryOfRow headers c row).approval = normalizeApproval (getCell row headers "Approval")) ∧
    normalizeApproval none = Approval.approval ∧
    (∀ v : String, jsLower (jsTrim v) ≠ "approve" → jsLower (jsTrim v) ≠ "approved" →
      jsLower (jsTrim v) ≠ "approval" → jsLower (jsTrim v) ≠ "reject" →
      jsLower (jsTrim v) ≠ "rejected" → jsLower (jsTrim v) ≠ "sent" →
      normalizeApproval (some v) = Approval.approval) := by
  refine ⟨fun headers rows c => buildSendMessage_length headers rows c,
    fun headers row => rfl, ?_, fun headers c row => rfl, by decide, ?_⟩
  · intro headers row h1 h2
    simp [sendMsgAdmit, h1, h2]
  · intro v h1 h2 h3 h4 h5 h6
    by_cases hv : v = ""
    · subst hv; decide
    · simp only [normalizeApproval, optStr, Option.getD, strOr]
      rw [if_neg hv, if_neg (by rintro (h | h | h) <;> [exact h1 h; exact h2 h; exact h3 h]),
        if_neg (by rintro (h | h) <;> [exact h4 h; exact h5 h]), if_neg h6]

/-- C10 witness: a non-blank row with only a first name is admitted, and an
unrecognised approval spelling normalises to the default state. -/
theorem sendMessage_admission_witness :
    sendMsgAdmit ["First Name"] ["Ann"] = true ∧
    normalizeApproval (some "maybe") = Approval.approval :=
  ⟨sendMessage_admission.2.2.1 ["First Name"] ["Ann"] (by decide) (by decide),
   sendMessage_admission.2.2.2.2.2 "maybe" (by decide) (by decide) (by decide) (by decide)
     (by decide) (by decide)⟩

/-! ## C5: the DM+approval signature has priority over the profile signature -/

/-- C5: any header row carrying both the DM-body flag and the approval flag
classifies the tab as a DM (message-queue) sheet, and the scraped-data builder
then emits zero profile entries — even when the header also satisfies the
profile-data core-column signature, since the DM check is evaluated first. -/
theorem dm_sheet_priority (rows : List (List String)) (postTopic postUrl : Option String)
    (gid : Nat) (hdm : hasDMCol (rows.headD []) = true)
    (hap : hasApprovalCol (rows.headD []) = true) :
    isDMSheet (rows.headD []) = true ∧ scrapedEntriesOfRows rows postTopic postUrl gid = [] := by
  have hdms : isDMSheet (rows.headD []) = true := by
    simp only [isDMSheet]
    rw [hdm, hap]
    rfl
  refine ⟨hdms, ?_⟩
  simp only [scrapedEntriesOfRows]
  by_cases h1 : rows.length = 0 ∨ rows.length = 1
  · rw [if_pos h1]
  · rw [if_neg h1, if_pos hdms]

/-- C5 witness: a header row satisfying both the message-queue and the
profile-data signatures yields zero profile entries. -/
theorem dm_sheet_priority_witness :
    scrapedEntriesOfRows
      [["First Name", "Last Name", "Profile URL", "DM", "Approval"],
       ["A", "B", "u", "hi", "Approved"]] none none 3 = [] :=
  (dm_sheet_priority
    [["First Name", "Last Name", "Profile URL", "DM", "Approval"],
     ["A", "B", "u", "hi", "Approved"]] none none 3 (by decide) (by decide)).2

/-! ## C6: profile-entry admission and the tab-level post-URL fallback -/

theorem strOr_empty_right (x : String) : strOr x "" = x := by
  unfold strOr
  by_cases h : x = ""
  · rw [if_pos h, h]
  · rw [if_neg h]

theorem strOr_ne_empty (x y : String) (hy : y ≠ "") : strOr x y ≠ "" := by
  unfold strOr
  by_cases h : x = ""
  · rw [if_pos h]; exact hy
  · rw [if_neg h]; exact h

theorem scrapedLinkedinPost_none (row headers : List String) :
    scrapedLinkedinPost row headers none =
      strOr (optStr (getCell row headers "Linkedin Post"))
        (optStr (getCell row headers "LinkedIn Post")) := by
  simp only [scrapedLinkedinPost, optStr, Option.getD]
  rw [strOr_empty_right]

/-- C6 counterexample: in a tab whose directory entry supplies a tab-level
post URL, a data row carrying only a first name — no profile URL, no post
cell, no post author — is admitted as a Profile Entry, because the resolved
post value falls back to the tab-level URL; the claim says such a row is
rejected for every tab. -/
theorem profile_admission_cex :
    (scrapedEntriesOfRows
      [["First Name", "Last Name", "Profile URL", "Linkedin Post"], ["Alice", "", "", ""]]
      (some "Launch") (some "https://x.com/p") 5).length = 1 ∧
    (scrapedEntriesOfRows
      [["First Name", "Last Name", "Profile URL", "Linkedin Post"], ["Alice", "", "", ""]]
      (some "Launch") none 5).length = 0 := by
  exact ⟨by decide, by decide⟩

/-- C6 (amended): the builder's emitted-entry count equals the count of rows
passing `scrapedAdmit`; with no tab-level post URL the admission rule is
exactly the claimed one — a name AND one of profile URL / post cell / post
author —, so a last-name-plus-profile-URL row is admitted and a
first-name-only row is rejected; but the post-URL disjunct is satisfied by
the tab-level fallback, so in a tab whose directory entry supplies a
non-empty post URL every non-blank row with a name is admitted. -/
theorem profile_admission :
    (∀ (headers : List String) (postTopic postUrl : Option String) (gid : Nat)
        (rows : List (List String)) (c : Nat),
      (buildScraped headers postTopic postUrl gid c rows).length =
        rows.countP (scrapedAdmit headers postUrl)) ∧
    (∀ headers row : List String,
      scrapedAdmit headers none row =
        (!rowEmpty row &&
          (optStr (getCell row headers "First Name") ≠ "" ||
           optStr (getCell row headers "Last Name") ≠ "") &&
          (optStr (getCell row headers "Profile URL") ≠ "" ||
           strOr (optStr (getCell row headers "Linkedin Post"))
             (optStr (getCell row headers "LinkedIn Post")) ≠ "" ||
           jsOptional (getCell row headers "LinkedIn Post User") ≠ none))) ∧
    (∀ (headers row : List String) (pu : String), rowEmpty row = false →
      (optStr (getCell row headers "First Name") ≠ "" ∨
       optStr (getCell row headers "Last Name") ≠ "") → pu ≠ "" →
      scrapedAdmit headers (some pu) row = true) ∧
    (∀ (headers row : List String) (pu : Option String), rowEmpty row = false →
      optStr (getCell row headers "Last Name") ≠ "" →
      optStr (getCell row headers "Profile URL") ≠ "" →
      scrapedAdmit headers pu row = true) := by
  refine ⟨fun headers pt pu gid rows c => buildScraped_length headers pt pu gid rows c,
    ?_, ?_, ?_⟩
  · intro headers row
    rw [scrapedAdmit, scrapedLinkedinPost_none]
  · intro headers row pu hrow hname hpu
    have hpost : scrapedLinkedinPost row headers (some pu) ≠ "" := by
      apply strOr_ne_empty
      apply strOr_ne_empty
      simpa [optStr] using hpu
    rcases hname with h | h <;> simp [scrapedAdmit, hrow, hpost, h]
  · intro headers row pu hrow hln hpuc
    simp [scrapedAdmit, hrow, hln, hpuc]

/-- C6 witness: the amended rule on concrete rows — a first-name-only row is
admitted under a tab-level post URL, and a last-name-plus-profile-URL row is
admitted with no tab-level post URL. -/
theorem profile_admission_witness :
    scrapedAdmit ["First Name", "Last Name", "Profile URL", "Linkedin Post"]
      (some "https://x.com/p") ["Alice", "", "", ""] = true ∧
    scrapedAdmit ["First Name", "Last Name", "Profile URL", "Linkedin Post"]
      none ["", "Doe", "https://li.com/in/jd", ""] = true :=
  ⟨profile_admission.2.2.1 _ _ "https://x.com/p" (by decide) (Or.inl (by decide)) (by decide),
   profile_admission.2.2.2 _ _ none (by decide) (by decide) (by decide)⟩

/-! ## C3: the approval-update state machine -/

/-- C3: through the client write path, a request whose target state is `sent`
is rejected before any network call, any request on an entry already in state
`sent` is rejected before any network call, and a transition to `reject`
followed by a transition back to `approval` (re-approval) is issued as an API
call. -/
theorem approval_state_machine :
    (∀ e : SendMessageEntry, handleMessageApprovalUpdate e .sent = .blockedSentTarget) ∧
    (∀ (e : SendMessageEntry) (t : Approval), e.approval = .sent →
      ∀ (r : Nat) (a : Approval) (lp f l : String),
        handleMessageApprovalUpdate e t ≠ .apiCall r a lp f l) ∧
    (∀ e : SendMessageEntry, e.approval ≠ .sent →
      handleMessageApprovalUpdate e .reject =
        .apiCall e.rowId .reject e.linkedinPost e.firstName e.lastName) ∧
    (∀ e : SendMessageEntry, e.approval = .reject →
      handleMessageApprovalUpdate e .approval =
        .apiCall e.rowId .approval e.linkedinPost e.firstName e.lastName) := by
  refine ⟨?_, ?_, ?_, ?_⟩
  · intro e
    simp [handleMessageApprovalUpdate]
  · intro e t he r a lp f l
    by_cases ht : t = .sent
    · subst ht; simp [handleMessageApprovalUpdate]
    · simp [handleMessageApprovalUpdate, ht, he]
  · intro e he
    simp [handleMessageApprovalUpdate, he]
  · intro e he
    simp [handleMessageApprovalUpdate, he]

/-- C3 witness: a rejected entry is re-approved through an API call. -/
theorem approval_state_machine_witness :
    handleMessageApprovalUpdate
      { rowId := 1, linkedinPost := "p", firstName := "A", lastName := "B",
        profileUrl := "u", headline := none, company := none, approval := .reject }
      .approval = .apiCall 1 .approval "p" "A" "B" :=
  approval_state_machine.2.2.2
    { rowId := 1, linkedinPost := "p", firstName := "A", lastName := "B",
      profileUrl := "u", headline := none, company := none, approval := .reject } rfl

/-! ## C4: an out-of-range ordinal is a hard failure with no write -/

theorem routeWalk_none (headers : List String) (rowIdNum : Nat) :
    ∀ (rest : List (List String)) (i c : Nat),
      c + rest.countP (routeAdmit headers) < rowIdNum →
      routeWalk headers rowIdNum i c rest = (none, c + rest.countP (routeAdmit headers)) := by
  intro rest
  induction rest with
  | nil => intro i c h; simp [routeWalk]
  | cons row rest ih =>
      intro i c h
      have hc := List.countP_cons (routeAdmit headers) row rest
      rw [routeWalk]
      by_cases ha : routeAdmit headers row
      · rw [if_pos ha]
        have h' : c + 1 + rest.countP (routeAdmit headers) < rowIdNum := by
          rw [hc] at h; simp only [ha, if_true] at h; omega
        rw [if_neg (by omega), ih (i + 1) (c + 1) h', hc]
        simp only [ha, if_true, Prod.mk.injEq, true_and]
        omega
      · rw [if_neg ha]
        have h' : c + rest.countP (routeAdmit headers) < rowIdNum := by
          rw [hc] at h; simp only [ha, if_false] at h; omega
        rw [ih (i + 1) c h', hc]
        simp [ha]

/-- C4: whenever the freshly fetched grid has fewer admitted rows than the
requested `rowId` (the admitted-row counter never reaches it), the update
route returns the thrown row-not-found failure — whose message carries the
rowId — and never reaches the write to the Apps Script sink; it neither
clamps the ordinal nor picks another row. -/
theorem update_row_not_found :
    (∀ (rows : List (List String)) (scriptUrl : Option String)
        (rowId : Nat) (approval linkedinPost firstName lastName : String),
      rowId ≠ 0 →
      (approval = "approval" ∨ approval = "reject" ∨ approval = "sent") →
      2 ≤ rows.length →
      (routeApprovalCol (rows.headD [])).isSome →
      (rows.tail).countP (routeAdmit (rows.headD [])) < rowId →
      messageUpdatePOST rows scriptUrl rowId approval linkedinPost firstName lastName =
        .failedUpdate
          (rowNotFoundMsg rowId ((rows.tail).countP (routeAdmit (rows.headD []))) rows.length)) ∧
    (∀ (rows : List (List String)) (scriptUrl : Option String)
        (rowId : Nat) (approval linkedinPost firstName lastName : String),
      (rows.tail).countP (routeAdmit (rows.headD [])) < rowId →
      ∀ (r c : Nat) (v f l p : String),
        messageUpdatePOST rows scriptUrl rowId approval linkedinPost firstName lastName ≠
          .write r c v f l p) := by
  constructor
  · intro rows scriptUrl rowId approval linkedinPost firstName lastName hid hv hlen hcol hcount
    have hne : approval ≠ "" := by rcases hv with h | h | h <;> simp [h]
    have hhdr : ¬((rows.headD []).length = 0) := by
      intro h0
      rw [List.length_eq_zero] at h0
      rw [h0] at hcol
      simp [routeApprovalCol] at hcol
    obtain ⟨j, hj⟩ := Option.isSome_iff_exists.mp hcol
    simp only [messageUpdatePOST]
    rw [if_neg (by rintro (h | h); exacts [hid h, hne h]),
      if_neg (not_not_intro hv), if_neg (by omega), if_neg hhdr]
    split
    · rename_i heq
      rw [hj] at heq
      simp at heq
    · rename_i aci haci
      split
      · rename_i checked hw
        rw [routeWalk_none (rows.headD []) rowId rows.tail 1 0 (by simpa using hcount)] at hw
        have : checked = 0 + (rows.tail).countP (routeAdmit (rows.headD [])) := by
          injection hw with h1 h2
          exact h2.symm
        rw [this]
        simp
      · rename_i t snd hw
        rw [routeWalk_none (rows.headD []) rowId rows.tail 1 0 (by simpa using hcount)] at hw
        simp at hw
  · intro rows scriptUrl rowId approval linkedinPost firstName lastName hcount r c v f l p
    simp only [messageUpdatePOST]
    split
    · exact fun h => RouteResult.noConfusion h
    split
    · exact fun h => RouteResult.noConfusion h
    split
    · exact fun h => RouteResult.noConfusion h
    split
    · exact fun h => RouteResult.noConfusion h
    split
    · exact fun h => RouteResult.noConfusion h
    · rename_i aci haci
      split
      · exact fun h => RouteResult.noConfusion h
      · rename_i t snd hw
        rw [routeWalk_none (rows.headD []) rowId rows.tail 1 0 (by simpa using hcount)] at hw
        exact absurd hw (by simp)

/-- C4 witness: requesting rowId 2 against an export with a single admitted
row yields the row-not-found failure. -/
theorem update_row_not_found_witness :
    messageUpdatePOST [["First Name", "Approval"], ["Ann", "x"]] (some "script")
      2 "reject" "p" "Ann" "B" = .failedUpdate (rowNotFoundMsg 2 1 2) :=
  (update_row_not_found.1 [["First Name", "Approval"], ["Ann", "x"]] (some "script")
    2 "reject" "p" "Ann" "B" (by decide) (Or.inr (Or.inl rfl)) (by decide) (by decide)
    (by decide)).trans (by decide)

/-! ## C1: the route re-derivation disagrees with the builder's walk -/

/-- C1 (code bug): on an export whose first-name header is spelled
`FirstName`, `fetchSendMessageData` resolves the column through its synonym
table and builds entry 1 from sheet row 2 (the `Alice` row), while the update
route's duplicated walk — which matches headers only by the plain substring
`first name` and whose comments claim it replays the builder exactly — finds
no first-name column and resolves rowId 1 to sheet row 3: for the same grid
the two ordinal-to-row computations disagree, so an approval update for
Alice's entry would be written to the wrong sheet row. -/
theorem update_walk_divergence :
    (sendMessageEntriesOfRows
        [["FirstName", "Profile URL", "Approval"], ["Alice", "", ""], ["", "u", ""]]).map
        (fun e => (e.rowId, e.firstName, e.profileUrl)) = [(1, "Alice", ""), (2, "", "u")] ∧
    builderTargetRow
      [["FirstName", "Profile URL", "Approval"], ["Alice", "", ""], ["", "u", ""]] 1 = some 2 ∧
    routeTargetRow
      [["FirstName", "Profile URL", "Approval"], ["Alice", "", ""], ["", "u", ""]] 1 = some 3 := by
  exact ⟨by decide, by decide, by decide⟩

/-! ## C2: the unified-lead merge deduplicates on the raw key -/

/-- C2 counterexample: a Profile Entry with post URL
`https://www.x.com/p/1/` and a Combined-Leads entry with post URL
`x.com/p/1` and identical names have equal *normalized* triples, yet
`allLeads` keeps both — the dedup key is built from the raw strings, so the
merge does not yield exactly one unified lead per normalized class. -/
theorem merge_normalization_cex :
    normalizeUrl "https://www.x.com/p/1/" = normalizeUrl "x.com/p/1" ∧
    (allLeads
      [{ rowId := 1, linkedInPostUser := none, linkedinPost := "https://www.x.com/p/1/",
         firstName := "Jo", lastName := "Doe", profileUrl := "sp", company := none,
         role := none, headline := none, about := none, engagementType := none,
         commentText := none, postTopic := none, postGid := 7 }]
      [{ rowId := 1, linkedinPost := "x.com/p/1", firstName := "Jo", lastName := "Doe",
         profileUrl := "dp", postTopic := none }]).length = 2 := by
  exact ⟨by decide, by decide⟩

theorem mergeDedup_sublist :
    ∀ (l : List UnifiedLead) (seen : List String), (mergeDedup l seen).Sublist l := by
  intro l
  induction l with
  | nil => intro seen; simp [mergeDedup]
  | cons x rest ih =>
      intro seen
      rw [mergeDedup]
      by_cases h : leadKey x ∈ seen
      · rw [if_pos h]; exact (ih seen).cons x
      · rw [if_neg h]; exact (ih (leadKey x :: seen)).cons₂ x

theorem mergeDedup_keys_fresh :
    ∀ (l : List UnifiedLead) (seen : List String),
      ((mergeDedup l seen).map leadKey).Nodup ∧
        ∀ k ∈ (mergeDedup l seen).map leadKey, k ∉ seen := by
  intro l
  induction l with
  | nil => intro seen; simp [mergeDedup]
  | cons x rest ih =>
      intro seen
      rw [mergeDedup]
      by_cases h : leadKey x ∈ seen
      · rw [if_pos h]; exact ih seen
      · rw [if_neg h]
        obtain ⟨ihn, ihf⟩ := ih (leadKey x :: seen)
        constructor
        · simp only [List.map_cons, List.nodup_cons]
          exact ⟨fun hmem => (ihf _ hmem) (by simp), ihn⟩
        · intro k hk
          simp only [List.map_cons, List.mem_cons] at hk
          rcases hk with hk | hk
          · subst hk; exact h
          · intro hks
            exact (ihf k hk) (by simp [hks])

theorem mergeDedup_covers :
    ∀ (l : List UnifiedLead) (seen : List String) (x : UnifiedLead),
      x ∈ l → leadKey x ∉ seen → ∃ y ∈ mergeDedup l seen, leadKey y = leadKey x := by
  intro l
  induction l with
  | nil => intro seen x hx; simp at hx
  | cons a rest ih =>
      intro seen x hx hxs
      rw [mergeDedup]
      by_cases h : leadKey a ∈ seen
      · rw [if_pos h]
        rcases List.mem_cons.mp hx with rfl | hx'
        · exact absurd h hxs
        · exact ih seen x hx' hxs
      · rw [if_neg h]
        rcases List.mem_cons.mp hx with rfl | hx'
        · exact ⟨x, by simp, rfl⟩
        · by_cases hk : leadKey x = leadKey a
          · exact ⟨a, by simp, hk.symm⟩
          · obtain ⟨y, hy, hky⟩ := ih (leadKey a :: seen) x hx'
              (by rw [List.mem_cons]; push_neg; exact ⟨hk, hxs⟩)
            exact ⟨y, by simp [hy], hky⟩

theorem mergeDedup_first :
    ∀ (l : List UnifiedLead) (seen : List String) (y : UnifiedLead),
      y ∈ mergeDedup l seen →
        leadKey y ∉ seen ∧
          ∃ pre suf, l = pre ++ y :: suf ∧ ∀ x ∈ pre, leadKey x ≠ leadKey y := by
  intro l
  induction l with
  | nil => intro seen y hy; simp [mergeDedup] at hy
  | cons a rest ih =>
      intro seen y hy
      rw [mergeDedup] at hy
      by_cases h : leadKey a ∈ seen
      · rw [if_pos h] at hy
        obtain ⟨hfresh, pre, suf, heq, hpre⟩ := ih seen y hy
        refine ⟨hfresh, a :: pre, suf, by rw [heq, List.cons_append], ?_⟩
        intro x hx
        rcases List.mem_cons.mp hx with rfl | hx'
        · intro hkey; exact hfresh (hkey ▸ h)
        · exact hpre x hx'
      · rw [if_neg h] at hy
        rcases List.mem_cons.mp hy with rfl | hy'
        · exact ⟨h, [], rest, rfl, by simp⟩
        · obtain ⟨hfresh, pre, suf, heq, hpre⟩ := ih (leadKey a :: seen) y hy'
          have hkey_ne : leadKey a ≠ leadKey y := fun hk => hfresh (by simp [hk])
          refine ⟨fun hs => hfresh (by simp [hs]), a :: pre, suf, by rw [heq, List.cons_append], ?_⟩
          intro x hx
          rcases List.mem_cons.mp hx with rfl | hx'
          · exact hkey_ne
          · exact hpre x hx'

/-- C2 (amended): `allLeads` keeps exactly one entry per class of equal *raw*
`postUrl_firstName_lastName` keys — exact string equality, no normalization —
keeping the first occurrence, with scraped (profile) entries merged before
combined-lead entries: the result is a subsequence of the candidate list, its
keys are pairwise distinct, every candidate's key is represented, and every
kept entry is the first candidate with its key. -/
theorem merge_dedup_raw_key (scrapedData : List ScrapedDataEntry) (dmData : List DMEntry) :
    (allLeads scrapedData dmData).Sublist (unifiedCandidates scrapedData dmData) ∧
    ((allLeads scrapedData dmData).map leadKey).Nodup ∧
    (∀ x ∈ unifiedCandidates scrapedData dmData,
      ∃ y ∈ allLeads scrapedData dmData, leadKey y = leadKey x) ∧
    (∀ y ∈ allLeads scrapedData dmData,
      ∃ pre suf, unifiedCandidates scrapedData dmData = pre ++ y :: suf ∧
        ∀ x ∈ pre, leadKey x ≠ leadKey y) := by
  refine ⟨mergeDedup_sublist _ _, (mergeDedup_keys_fresh _ _).1, ?_, ?_⟩
  · intro x hx
    exact mergeDedup_covers _ [] x hx (by simp)
  · intro y hy
    exact (mergeDedup_first _ [] y hy).2

/-- C2 amended-claim witness: on the cross-notation example the kept keys are
pairwise distinct and the merge is a subsequence of the candidates. -/
theorem merge_dedup_raw_key_witness :
    ((allLeads
      [{ rowId := 1, linkedInPostUser := none, linkedinPost := "https://www.x.com/p/1/",
         firstName := "Jo", lastName := "Doe", profileUrl := "sp", company := none,
         role := none, headline := none, about := none, engagementType := none,
         commentText := none, postTopic := none, postGid := 7 }]
      [{ rowId := 1, linkedinPost := "x.com/p/1", firstName := "Jo", lastName := "Doe",
         profileUrl := "dp", postTopic := none }]).map leadKey).Nodup :=
  (merge_dedup_raw_key _ _).2.1

end ChatWalrus
